import Mathlib

/-!
Verification of the eq query/transform tool (src/transform.rs, src/parse.rs,
src/main.rs) against its design specification.

The value model embeds the external edn crate's Value type as the spec's §3
data model describes it: Map and Set are carried as their canonical iteration
sequences (the BTreeMap/BTreeSet in-order traversal).  The f64 payload of
Float is carried as its bit pattern; no claim computes with floats.
-/

/-- The edn Value type (external crate), modelled from the spec: a closed
recursive variant type; Map is its ordered entry sequence, Set its ordered
element sequence. -/
inductive Value : Type where
  | nil : Value
  | bool (b : Bool) : Value
  | str (s : String) : Value
  | char (c : Char) : Value
  | symbol (s : String) : Value
  | keyword (s : String) : Value
  | int (i : Int) : Value
  | float (bits : Nat) : Value
  | list (xs : List Value) : Value
  | vector (xs : List Value) : Value
  | map (entries : List (Value × Value)) : Value
  | set (xs : List Value) : Value
  | tagged (tag : String) (v : Value) : Value

/-- transform.rs `value_type_name`: human-readable noun phrase per variant. -/
def value_type_name : Value → String
  | Value.nil => "nil"
  | Value.bool _ => "a boolean"
  | Value.str _ => "a string"
  | Value.char _ => "a character"
  | Value.symbol _ => "a symbol"
  | Value.keyword _ => "a keyword"
  | Value.int _ => "an integer"
  | Value.float _ => "a float"
  | Value.list _ => "a list"
  | Value.vector _ => "a vector"
  | Value.map _ => "a map"
  | Value.set _ => "a set"
  | Value.tagged _ _ => "a tagged"

/-- transform.rs `OperationError(String)`. -/
structure OperationError : Type where
  msg : String

/-- The closed operation set of transform.rs (IdentityOperation, GetOperation,
KeysOperation, ValuesOperation, MapOperation) as the tagged variant the spec's
§9 design note prescribes for the dynamically dispatched trait objects. -/
inductive Operation : Type where
  | identity : Operation
  | get (key : Value) : Operation
  | keys : Operation
  | values : Operation
  | mapOp (inner : Operation) : Operation

mutual

/-- Structural equality on Value (the derived PartialEq of the edn crate). -/
def Value.beq : Value → Value → Bool
  | Value.nil, Value.nil => true
  | Value.bool a, Value.bool b => a == b
  | Value.str a, Value.str b => a == b
  | Value.char a, Value.char b => a == b
  | Value.symbol a, Value.symbol b => a == b
  | Value.keyword a, Value.keyword b => a == b
  | Value.int a, Value.int b => a == b
  | Value.float a, Value.float b => a == b
  | Value.list a, Value.list b => Value.beqList a b
  | Value.vector a, Value.vector b => Value.beqList a b
  | Value.map a, Value.map b => Value.beqPairs a b
  | Value.set a, Value.set b => Value.beqList a b
  | Value.tagged t a, Value.tagged u b => t == u && Value.beq a b
  | _, _ => false

/-- Elementwise structural equality for value sequences. -/
def Value.beqList : List Value → List Value → Bool
  | [], [] => true
  | a :: as, b :: bs => Value.beq a b && Value.beqList as bs
  | _, _ => false

/-- Entrywise structural equality for map entry sequences. -/
def Value.beqPairs : List (Value × Value) → List (Value × Value) → Bool
  | [], [] => true
  | (k, v) :: as, (l, w) :: bs => Value.beq k l && Value.beq v w && Value.beqPairs as bs
  | _, _ => false

end

/-- Modelled from the spec: the fixed discriminant priority of the canonical
total order over Value (§3), in declaration order of the variants. -/
def Value.rank : Value → Nat
  | Value.nil => 0
  | Value.bool _ => 1
  | Value.str _ => 2
  | Value.char _ => 3
  | Value.symbol _ => 4
  | Value.keyword _ => 5
  | Value.int _ => 6
  | Value.float _ => 7
  | Value.list _ => 8
  | Value.vector _ => 9
  | Value.map _ => 10
  | Value.set _ => 11
  | Value.tagged _ _ => 12

mutual

/-- Modelled from the spec: the canonical total order over Value (§3) that
the external edn crate's Ord instance realises and that BTreeMap/BTreeSet
iteration follows — variants ranked by discriminant priority, same-variant
values compared structurally.  Float payloads are compared by bit pattern;
no claim compares floats. -/
def Value.cmp : Value → Value → Ordering
  | Value.nil, Value.nil => Ordering.eq
  | Value.bool a, Value.bool b => compare a b
  | Value.str a, Value.str b => compare a b
  | Value.char a, Value.char b => compare a b
  | Value.symbol a, Value.symbol b => compare a b
  | Value.keyword a, Value.keyword b => compare a b
  | Value.int a, Value.int b => compare a b
  | Value.float a, Value.float b => compare a b
  | Value.list a, Value.list b => Value.cmpList a b
  | Value.vector a, Value.vector b => Value.cmpList a b
  | Value.map a, Value.map b => Value.cmpPairs a b
  | Value.set a, Value.set b => Value.cmpList a b
  | Value.tagged t a, Value.tagged u b =>
    (match compare t u with
     | Ordering.eq => Value.cmp a b
     | o => o)
  | v, w => compare v.rank w.rank

/-- Elementwise lexicographic comparison of value sequences. -/
def Value.cmpList : List Value → List Value → Ordering
  | [], [] => Ordering.eq
  | [], _ :: _ => Ordering.lt
  | _ :: _, [] => Ordering.gt
  | a :: as, b :: bs =>
    (match Value.cmp a b with
     | Ordering.eq => Value.cmpList as bs
     | o => o)

/-- Entrywise lexicographic comparison of map entry sequences, keys first. -/
def Value.cmpPairs : List (Value × Value) → List (Value × Value) → Ordering
  | [], [] => Ordering.eq
  | [], _ :: _ => Ordering.lt
  | _ :: _, [] => Ordering.gt
  | (k, v) :: as, (l, w) :: bs =>
    (match Value.cmp k l with
     | Ordering.eq =>
       (match Value.cmp v w with
        | Ordering.eq => Value.cmpPairs as bs
        | o => o)
     | o => o)

end

/-- BTreeMap::get with `unwrap_or(&Value::Nil)`: the value stored under `key`,
or Nil when the key is absent (GetOperation::execute's map branch). -/
def mapGet : List (Value × Value) → Value → Value
  | [], _ => Value.nil
  | (k, v) :: rest, key => if Value.beq k key then v else mapGet rest key

/-- MapOperation::do_map's `try_fold`: apply `f` to each element in order,
pushing results; the first failure aborts with that error. -/
def tryFoldPush (f : Value → Except OperationError Value) :
    List Value → List Value → Except OperationError (List Value)
  | acc, [] => Except.ok acc
  | acc, x :: rest =>
    match f x with
    | Except.ok v => tryFoldPush f (acc ++ [v]) rest
    | Except.error e => Except.error e

/-- The `Operation::execute` contract of transform.rs, one arm per
implementation.  Map/Set inputs are their canonical iteration sequences, so
`do_map` receives the elements in that order; the Map arm's error message
names 'get', exactly as the source does. -/
def Operation.execute : Operation → Value → Except OperationError Value
  | Operation.identity, input => Except.ok input
  | Operation.keys, input =>
    match input with
    | Value.map m => Except.ok (Value.vector (m.map Prod.fst))
    | _ => Except.error ⟨ "Can not apply 'keys' operation to " ++ value_type_name input⟩
  | Operation.values, input =>
    match input with
    | Value.map m => Except.ok (Value.vector (m.map Prod.snd))
    | _ => Except.error ⟨ "Can not apply 'values' operation to " ++ value_type_name input⟩
  | Operation.get key, input =>
    match input with
    | Value.map m => Except.ok (mapGet m key)
    | _ => Except.error ⟨ "Can not apply 'get' operation to " ++ value_type_name input⟩
  | Operation.mapOp inner, input =>
    match input with
    | Value.list l => (tryFoldPush (fun x => Operation.execute inner x) [] l).map Value.vector
    | Value.vector v => (tryFoldPush (fun x => Operation.execute inner x) [] v).map Value.vector
    | Value.set s => (tryFoldPush (fun x => Operation.execute inner x) [] s).map Value.vector
    | _ => Except.error ⟨ "Can not apply 'get' operation to " ++ value_type_name input⟩

/-- transform.rs `TransformOptions`. -/
structure TransformOptions : Type where
  expression : String

/-- transform.rs `parse_transform`: ignores its argument and always yields the
single-step Identity pipeline (the commented-out wiring is dead code). -/
def parse_transform (_transform : String) : Option (List Operation) :=
  some [Operation.identity]

/-- transform.rs `transform_form`: `try_fold` of the operations over the form,
left to right. -/
def transform_form : Value → List Operation → Except OperationError Value
  | form, [] => Except.ok form
  | form, op :: ops =>
    match op.execute form with
    | Except.ok next => transform_form next ops
    | Except.error e => Except.error e

/-- The `try_fold` inside transform_edn's Some branch: transform each form,
accumulating outputs, aborting on the first error. -/
def transformEdnGo (ops : List Operation) :
    List Value → List Value → Except OperationError (List Value)
  | acc, [] => Except.ok acc
  | acc, form :: forms =>
    match transform_form form ops with
    | Except.ok x => transformEdnGo ops (acc ++ [x]) forms
    | Except.error e => Except.error e

/-- transform.rs `transform_edn`. -/
def transform_edn (forms : List Value) (transform : TransformOptions) :
    Except OperationError (List Value) :=
  match parse_transform transform.expression with
  | none => Except.ok forms
  | some ops => transformEdnGo ops [] forms

/-- input.rs `ReadError`. -/
inductive ReadError : Type where
  | ioError : ReadError
  | parseError : ReadError

/-- main.rs `ApplicationError`. -/
inductive ApplicationError : Type where
  | read (e : ReadError) : ApplicationError
  | operation (e : OperationError) : ApplicationError

/-- The `{:?}` rendering of ReadError used by main's FATAL line. -/
def readErrorDebug : ReadError → String
  | ReadError.ioError => "IOError"
  | ReadError.parseError => "ParseError"

/-- What a run of main makes observable: the forms handed to the output sink
(none when format_output is never invoked) and the FATAL line printed, if
any.  main returns unit, so the process always exits successfully. -/
structure MainObservable : Type where
  sinkForms : Option (List Value)
  fatalMessage : Option String

/-- main.rs: the final `match output` — Ok hands the forms to format_output;
a Read error prints a FATAL line; an Operation error is matched with `()`
and its payload discarded. -/
def mainDispatch : Except ApplicationError (List Value) → MainObservable
  | Except.ok p => { sinkForms := some p, fatalMessage := none }
  | Except.error (ApplicationError.read w) =>
    { sinkForms := none, fatalMessage := some ( "FATAL: " ++ readErrorDebug w) }
  | Except.error (ApplicationError.operation _) =>
    { sinkForms := none, fatalMessage := none }

/-- main.rs: the read/transform chain feeding the final match. -/
def mainRun (readResult : Except ReadError (List Value)) (opts : TransformOptions) :
    MainObservable :=
  mainDispatch
    (match readResult with
     | Except.error e => Except.error (ApplicationError.read e)
     | Except.ok c =>
       match transform_edn c opts with
       | Except.ok v => Except.ok v
       | Except.error e => Except.error (ApplicationError.operation e))

/-- std `str::from_utf8` validation and decoding, byte by byte: ASCII, then
2-, 3- and 4-byte sequences with the standard continuation-range checks that
reject overlong encodings, surrogates and values above U+10FFFF; `none`
models `Err(Utf8Error)`. -/
def utf8Decode : List Nat → Option (List Char)
  | [] => some []
  | b :: rest =>
    if b < 0x80 then
      (utf8Decode rest).map (fun cs => Char.ofNat b :: cs)
    else if b < 0xC2 then none
    else if b ≤ 0xDF then
      match rest with
      | c :: rest2 =>
        if 0x80 ≤ c && c ≤ 0xBF then
          (utf8Decode rest2).map
            (fun cs => Char.ofNat ((b - 0xC0) * 0x40 + (c - 0x80)) :: cs)
        else none
      | [] => none
    else if b ≤ 0xEF then
      match rest with
      | c :: d :: rest2 =>
        let lo := if b = 0xE0 then 0xA0 else 0x80
        let hi := if b = 0xED then 0x9F else 0xBF
        if lo ≤ c && c ≤ hi && 0x80 ≤ d && d ≤ 0xBF then
          (utf8Decode rest2).map
            (fun cs => Char.ofNat ((b - 0xE0) * 0x1000 + (c - 0x80) * 0x40 + (d - 0x80)) :: cs)
        else none
      | _ => none
    else if b ≤ 0xF4 then
      match rest with
      | c :: d :: e :: rest2 =>
        let lo := if b = 0xF0 then 0x90 else 0x80
        let hi := if b = 0xF4 then 0x8F else 0xBF
        if lo ≤ c && c ≤ hi && 0x80 ≤ d && d ≤ 0xBF && 0x80 ≤ e && e ≤ 0xBF then
          (utf8Decode rest2).map
            (fun cs =>
              Char.ofNat
                ((b - 0xF0) * 0x40000 + (c - 0x80) * 0x1000 + (d - 0x80) * 0x40 + (e - 0x80)) :: cs)
        else none
      | _ => none
    else none

/-- The UTF-8 byte sequence of an ASCII string; used only to write the
concrete byte inputs of theorems readably. -/
def asciiBytes (s : String) : List Nat :=
  s.data.map Char.toNat

namespace Parse

/-- Result of a nom 4 parser over `&[u8]` in its default streaming mode:
success with the unconsumed rest, `Err::Incomplete`, or `Err::Error`;
`panic` models a Rust panic raised while a combinator runs user code. -/
inductive PResult (α : Type) : Type where
  | done (rest : List Nat) (val : α) : PResult α
  | incomplete : PResult α
  | error : PResult α
  | panic : PResult α

/-- A nom parser over bytes. -/
def Parser (α : Type) : Type :=
  List Nat → PResult α

/-- nom `char!` (streaming): one exact byte; end of input is Incomplete. -/
def pchar (c : Nat) : Parser Nat := fun input =>
  match input with
  | [] => PResult.incomplete
  | b :: rest => if b = c then PResult.done rest b else PResult.error

/-- nom `tag!` (streaming): an exact byte sequence; an input that is a proper
prefix of the tag is Incomplete. -/
def ptag (t : List Nat) : Parser (List Nat) := fun input =>
  if t.isPrefixOf input then PResult.done (input.drop t.length) t
  else if input.isPrefixOf t then PResult.incomplete
  else PResult.error

/-- nom `take_while1!` (streaming): the longest nonempty run of bytes
satisfying `f`.  Reaching end of input while still matching is Incomplete
(the run might continue in the next chunk); a non-matching first byte is an
error. -/
def takeWhile1 (f : Nat → Bool) : Parser (List Nat) := fun input =>
  let taken := input.takeWhile f
  let rest := input.dropWhile f
  if rest.isEmpty then PResult.incomplete
  else if taken.isEmpty then PResult.error
  else PResult.done rest taken

/-- nom `value!`: run `p`, replace its result with `v`. -/
def pvalue {α β : Type} (v : α) (p : Parser β) : Parser α := fun input =>
  match p input with
  | PResult.done rest _ => PResult.done rest v
  | PResult.incomplete => PResult.incomplete
  | PResult.error => PResult.error
  | PResult.panic => PResult.panic

/-- nom `preceded!`: run `p`, discard, then run `q`. -/
def ppreceded {α β : Type} (p : Parser α) (q : Parser β) : Parser β := fun input =>
  match p input with
  | PResult.done rest _ => q rest
  | PResult.incomplete => PResult.incomplete
  | PResult.error => PResult.error
  | PResult.panic => PResult.panic

/-- nom `delimited!`: run `p`, then `q`, then `r`, keeping `q`'s value. -/
def pdelimited {α β γ : Type} (p : Parser α) (q : Parser β) (r : Parser γ) :
    Parser β := fun input =>
  match p input with
  | PResult.done rest1 _ =>
    (match q rest1 with
     | PResult.done rest2 v =>
       (match r rest2 with
        | PResult.done rest3 _ => PResult.done rest3 v
        | PResult.incomplete => PResult.incomplete
        | PResult.error => PResult.error
        | PResult.panic => PResult.panic)
     | PResult.incomplete => PResult.incomplete
     | PResult.error => PResult.error
     | PResult.panic => PResult.panic)
  | PResult.incomplete => PResult.incomplete
  | PResult.error => PResult.error
  | PResult.panic => PResult.panic

/-- nom `map!` applying a Rust function that may panic (`none`): a successful
parse on whose value the function panics aborts the process. -/
def pmapPanic {α β : Type} (f : β → Option α) (p : Parser β) : Parser α := fun input =>
  match p input with
  | PResult.done rest v =>
    (match f v with
     | some a => PResult.done rest a
     | none => PResult.panic)
  | PResult.incomplete => PResult.incomplete
  | PResult.error => PResult.error
  | PResult.panic => PResult.panic

/-- nom `alt!` of two branches: an Error in the first branch tries the
second; Incomplete is returned as is. -/
def palt {α : Type} (p q : Parser α) : Parser α := fun input =>
  match p input with
  | PResult.done rest v => PResult.done rest v
  | PResult.error => q input
  | PResult.incomplete => PResult.incomplete
  | PResult.panic => PResult.panic

/-- parse.rs `is_whitespace`: ASCII whitespace (space, tab, newline, form
feed, carriage return) or a comma. -/
def is_whitespace (c : Nat) : Bool :=
  c = 0x20 || c = 0x09 || c = 0x0A || c = 0x0C || c = 0x0D || c = 0x2C

/-- parse.rs `isnt_whitespace` (its println! side effect has no bearing on
the parse result). -/
def isnt_whitespace (c : Nat) : Bool :=
  !is_whitespace c

/-- parse.rs `keyword_to_get_op`: `str::from_utf8(keyword).unwrap()` wrapped
into a Get keyed on the Keyword; `none` is the panic of the unwrap on
invalid UTF-8. -/
def keyword_to_get_op (kw : List Nat) : Option Operation :=
  (utf8Decode kw).map (fun cs => Operation.get (Value.keyword (String.mk cs)))

/-- parse.rs `identity`: `value!(IdentityOperation, char!('.'))`. -/
def identity : Parser Operation :=
  pvalue Operation.identity (pchar 0x2E)

/-- parse.rs `keyword`:
`map!(preceded!(char!(':'), take_while1!(isnt_whitespace)), keyword_to_get_op)`. -/
def keyword : Parser Operation :=
  pmapPanic keyword_to_get_op (ppreceded (pchar 0x3A) (takeWhile1 isnt_whitespace))

/-- parse.rs `map`:
`delimited!(tag!("map("), take_while1!(isnt_whitespace), char!(')'))` — the
inner parser is a raw byte-run, not a recursive step, and the produced value
is those raw bytes, not an Operation. -/
def map : Parser (List Nat) :=
  pdelimited (ptag (asciiBytes ( "map("))) (takeWhile1 isnt_whitespace) (pchar 0x29)

/-- parse.rs `expr`: `alt!(identity | keyword)` — the map parser is not an
alternative. -/
def expr : Parser Operation :=
  palt identity keyword

end Parse

/-- The canonical entry sequence of the input form `{:a 1, :b 2}`. -/
def c1Entries : List (Value × Value) :=
  [(Value.keyword ( "a"), Value.int 1), (Value.keyword ( "b"), Value.int 2)]

/-- The input form `{:a 1, :b 2}`. -/
def c1Form : Value :=
  Value.map c1Entries

/-! ## Helper lemmas -/

mutual

theorem Value.beq_refl : (v : Value) → Value.beq v v = true
  | Value.nil => rfl
  | Value.bool b => by simp [Value.beq]
  | Value.str s => by simp [Value.beq]
  | Value.char c => by simp [Value.beq]
  | Value.symbol s => by simp [Value.beq]
  | Value.keyword s => by simp [Value.beq]
  | Value.int i => by simp [Value.beq]
  | Value.float b => by simp [Value.beq]
  | Value.list xs => by
    simp only [Value.beq]
    exact Value.beqList_refl xs
  | Value.vector xs => by
    simp only [Value.beq]
    exact Value.beqList_refl xs
  | Value.map m => by
    simp only [Value.beq]
    exact Value.beqPairs_refl m
  | Value.set xs => by
    simp only [Value.beq]
    exact Value.beqList_refl xs
  | Value.tagged t v => by
    simp only [Value.beq, Bool.and_eq_true, beq_self_eq_true, true_and]
    exact Value.beq_refl v

theorem Value.beqList_refl : (xs : List Value) → Value.beqList xs xs = true
  | [] => rfl
  | x :: xs => by
    simp only [Value.beqList, Bool.and_eq_true]
    exact ⟨Value.beq_refl x, Value.beqList_refl xs⟩

theorem Value.beqPairs_refl : (m : List (Value × Value)) → Value.beqPairs m m = true
  | [] => rfl
  | (k, v) :: m => by
    simp only [Value.beqPairs, Bool.and_eq_true]
    exact ⟨⟨Value.beq_refl k, Value.beq_refl v⟩, Value.beqPairs_refl m⟩

end

mutual

theorem Value.beq_sound : (v w : Value) → Value.beq v w = true → v = w
  | Value.nil, w, h => by
    cases w <;> simp only [Value.beq] at h
    case nil => rfl
    all_goals exact absurd h (by simp)
  | Value.bool a, w, h => by
    cases w <;> simp only [Value.beq, beq_iff_eq] at h
    case bool b => rw [h]
    all_goals exact absurd h (by simp)
  | Value.str a, w, h => by
    cases w <;> simp only [Value.beq, beq_iff_eq] at h
    case str b => rw [h]
    all_goals exact absurd h (by simp)
  | Value.char a, w, h => by
    cases w <;> simp only [Value.beq, beq_iff_eq] at h
    case char b => rw [h]
    all_goals exact absurd h (by simp)
  | Value.symbol a, w, h => by
    cases w <;> simp only [Value.beq, beq_iff_eq] at h
    case symbol b => rw [h]
    all_goals exact absurd h (by simp)
  | Value.keyword a, w, h => by
    cases w <;> simp only [Value.beq, beq_iff_eq] at h
    case keyword b => rw [h]
    all_goals exact absurd h (by simp)
  | Value.int a, w, h => by
    cases w <;> simp only [Value.beq, beq_iff_eq] at h
    case int b => rw [h]
    all_goals exact absurd h (by simp)
  | Value.float a, w, h => by
    cases w <;> simp only [Value.beq, beq_iff_eq] at h
    case float b => rw [h]
    all_goals exact absurd h (by simp)
  | Value.list xs, w, h => by
    cases w <;> simp only [Value.beq] at h
    case list ys => rw [Value.beqList_sound xs ys h]
    all_goals exact absurd h (by simp)
  | Value.vector xs, w, h => by
    cases w <;> simp only [Value.beq] at h
    case vector ys => rw [Value.beqList_sound xs ys h]
    all_goals exact absurd h (by simp)
  | Value.map m, w, h => by
    cases w <;> simp only [Value.beq] at h
    case map m2 => rw [Value.beqPairs_sound m m2 h]
    all_goals exact absurd h (by simp)
  | Value.set xs, w, h => by
    cases w <;> simp only [Value.beq] at h
    case set ys => rw [Value.beqList_sound xs ys h]
    all_goals exact absurd h (by simp)
  | Value.tagged t a, w, h => by
    cases w <;> simp only [Value.beq, Bool.and_eq_true, beq_iff_eq] at h
    case tagged u b => rw [h.1, Value.beq_sound a b h.2]
    all_goals exact absurd h (by simp)

theorem Value.beqList_sound : (xs ys : List Value) → Value.beqList xs ys = true → xs = ys
  | [], [], _ => rfl
  | [], _ :: _, h => absurd h (by simp [Value.beqList])
  | _ :: _, [], h => absurd h (by simp [Value.beqList])
  | x :: xs, y :: ys, h => by
    simp only [Value.beqList, Bool.and_eq_true] at h
    rw [Value.beq_sound x y h.1, Value.beqList_sound xs ys h.2]

theorem Value.beqPairs_sound :
    (xs ys : List (Value × Value)) → Value.beqPairs xs ys = true → xs = ys
  | [], [], _ => rfl
  | [], _ :: _, h => absurd h (by simp [Value.beqPairs])
  | _ :: _, [], h => absurd h (by simp [Value.beqPairs])
  | (k, v) :: xs, (l, w) :: ys, h => by
    simp only [Value.beqPairs, Bool.and_eq_true] at h
    rw [Value.beq_sound k l h.1.1, Value.beq_sound v w h.1.2,
      Value.beqPairs_sound xs ys h.2]

end

theorem Value.beq_false_of_ne {v w : Value} (h : v ≠ w) : Value.beq v w = false := by
  cases hb : Value.beq v w
  · rfl
  · exact absurd (Value.beq_sound v w hb) h

theorem mapGet_of_absent (k : Value) :
    (m : List (Value × Value)) → (∀ p ∈ m, p.1 ≠ k) → mapGet m k = Value.nil
  | [], _ => rfl
  | (k2, v) :: m, h => by
    have hbeq : Value.beq k2 k = false := Value.beq_false_of_ne (h (k2, v) (by simp))
    simp only [mapGet, hbeq, Bool.false_eq_true, if_false]
    exact mapGet_of_absent k m (fun p hp => h p (by simp [hp]))

theorem mapGet_first (k x : Value) (post : List (Value × Value)) :
    (pre : List (Value × Value)) → (∀ p ∈ pre, p.1 ≠ k) →
      mapGet (pre ++ (k, x) :: post) k = x
  | [], _ => by
    simp only [List.nil_append, mapGet, Value.beq_refl k, if_true]
  | (k2, v) :: pre, h => by
    have hbeq : Value.beq k2 k = false := Value.beq_false_of_ne (h (k2, v) (by simp))
    simp only [List.cons_append, mapGet, hbeq, Bool.false_eq_true, if_false]
    exact mapGet_first k x post pre (fun p hp => h p (by simp [hp]))

theorem tryFoldPush_all_ok (f : Value → Except OperationError Value) {xs rs : List Value}
    (h : List.Forall₂ (fun x r => f x = Except.ok r) xs rs) :
    ∀ acc, tryFoldPush f acc xs = Except.ok (acc ++ rs) := by
  induction h with
  | nil =>
    intro acc
    simp [tryFoldPush]
  | cons hxr htail ih =>
    intro acc
    simp only [tryFoldPush, hxr]
    rw [ih]
    simp

theorem tryFoldPush_first_error (f : Value → Except OperationError Value) (x : Value)
    (e : OperationError) (post : List Value) (hx : f x = Except.error e) :
    (pre : List Value) → (∀ y ∈ pre, ∃ r, f y = Except.ok r) →
      ∀ acc, tryFoldPush f acc (pre ++ x :: post) = Except.error e
  | [], _, acc => by simp [tryFoldPush, hx]
  | y :: pre, h, acc => by
    obtain ⟨r, hr⟩ := h y (by simp)
    simp only [List.cons_append, tryFoldPush, hr]
    exact tryFoldPush_first_error f x e post hx pre (fun z hz => h z (by simp [hz])) (acc ++ [r])

theorem dropWhile_all_true (f : Nat → Bool) :
    (l : List Nat) → (∀ b ∈ l, f b = true) → l.dropWhile f = []
  | [], _ => rfl
  | b :: l, h => by
    simp only [List.dropWhile_cons, h b (by simp), if_true]
    exact dropWhile_all_true f l (fun z hz => h z (by simp [hz]))

theorem takeWhile_app_sat (f : Nat → Bool) (w : Nat) (r : List Nat) (hw : f w = false) :
    (t : List Nat) → (∀ b ∈ t, f b = true) → (t ++ w :: r).takeWhile f = t
  | [], _ => by simp [List.takeWhile_cons, hw]
  | b :: t, h => by
    simp only [List.cons_append, List.takeWhile_cons, h b (by simp), if_true]
    rw [takeWhile_app_sat f w r hw t (fun z hz => h z (by simp [hz]))]

theorem dropWhile_app_sat (f : Nat → Bool) (w : Nat) (r : List Nat) (hw : f w = false) :
    (t : List Nat) → (∀ b ∈ t, f b = true) → (t ++ w :: r).dropWhile f = w :: r
  | [], _ => by simp [List.dropWhile_cons, hw]
  | b :: t, h => by
    simp only [List.cons_append, List.dropWhile_cons, h b (by simp), if_true]
    exact dropWhile_app_sat f w r hw t (fun z hz => h z (by simp [hz]))

theorem takeWhile1_stops (f : Nat → Bool) (t : List Nat) (w : Nat) (r : List Nat)
    (ht : t ≠ []) (hsat : ∀ b ∈ t, f b = true) (hw : f w = false) :
    Parse.takeWhile1 f (t ++ w :: r) = Parse.PResult.done (w :: r) t := by
  unfold Parse.takeWhile1
  rw [takeWhile_app_sat f w r hw t hsat, dropWhile_app_sat f w r hw t hsat]
  simp [List.isEmpty_eq_true, ht]

theorem takeWhile1_all_incomplete (f : Nat → Bool) (l : List Nat)
    (hsat : ∀ b ∈ l, f b = true) :
    Parse.takeWhile1 f l = Parse.PResult.incomplete := by
  unfold Parse.takeWhile1
  rw [dropWhile_all_true f l hsat]
  simp

theorem execute_mapOp_ok_is_vector (op : Operation) (v r : Value)
    (h : (Operation.mapOp op).execute v = Except.ok r) : ∃ ys, r = Value.vector ys := by
  cases v
  case list l =>
    simp only [Operation.execute] at h
    cases htf : tryFoldPush (fun x => Operation.execute op x) [] l with
    | ok ys =>
      rw [htf] at h
      simp only [Except.map, Except.ok.injEq] at h
      exact ⟨ys, h.symm⟩
    | error e =>
      rw [htf] at h
      simp [Except.map] at h
  case vector l =>
    simp only [Operation.execute] at h
    cases htf : tryFoldPush (fun x => Operation.execute op x) [] l with
    | ok ys =>
      rw [htf] at h
      simp only [Except.map, Except.ok.injEq] at h
      exact ⟨ys, h.symm⟩
    | error e =>
      rw [htf] at h
      simp [Except.map] at h
  case set l =>
    simp only [Operation.execute] at h
    cases htf : tryFoldPush (fun x => Operation.execute op x) [] l with
    | ok ys =>
      rw [htf] at h
      simp only [Except.map, Except.ok.injEq] at h
      exact ⟨ys, h.symm⟩
    | error e =>
      rw [htf] at h
      simp [Except.map] at h
  all_goals (simp only [Operation.execute] at h; exact absurd h (by simp))

/-! ## Claim theorems -/

/-- C1: for the input form {:a 1, :b 2} and the expression ":a" the driver is
claimed to return the single output form 1; in the code, parse_transform
ignores the expression and always substitutes the Identity pipeline, so
transform_edn returns the input map unchanged, which is not the integer 1. -/
theorem c1_driver_ignores_expression :
    transform_edn [c1Form] ⟨ ":a"⟩ = Except.ok [c1Form] ∧ c1Form ≠ Value.int 1 :=
  ⟨rfl, fun h => Value.noConfusion h⟩

/-- C2: the map parser is claimed to parse "map(" ++ step ++ ")" into a Map
operation owning the recursively parsed step; in the code, for every
whitespace-free inner step s the take_while1 run swallows the closing ')'
and hits end of input, so the parser returns Incomplete (and with trailing
input, Error), and expr does not even list map as an alternative, so "map(.)"
is a parse failure. -/
theorem c2_map_parser_never_parses_step :
    (∀ s : List Nat, (∀ b ∈ s, Parse.is_whitespace b = false) →
        Parse.map (asciiBytes ( "map(") ++ s ++ [0x29]) = Parse.PResult.incomplete) ∧
    Parse.map (asciiBytes ( "map(.)")) = Parse.PResult.incomplete ∧
    Parse.map (asciiBytes ( "map(.) ")) = Parse.PResult.error ∧
    Parse.expr (asciiBytes ( "map(.)")) = Parse.PResult.error := by
  refine ⟨?_, rfl, rfl, rfl⟩
  intro s hs
  have hsat : ∀ b ∈ s ++ [0x29], Parse.isnt_whitespace b = true := by
    intro b hb
    rcases List.mem_append.mp hb with h | h
    · simp [Parse.isnt_whitespace, hs b h]
    · simp only [List.mem_singleton] at h
      subst h
      rfl
  show Parse.pdelimited (Parse.ptag (asciiBytes ( "map(")))
      (Parse.takeWhile1 Parse.isnt_whitespace) (Parse.pchar 0x29)
      (asciiBytes ( "map(") ++ s ++ [0x29]) = Parse.PResult.incomplete
  unfold Parse.pdelimited Parse.ptag
  rw [List.append_assoc]
  rw [if_pos (List.isPrefixOf_iff_prefix.mpr (List.prefix_append _ _))]
  rw [List.drop_left]
  simp only [takeWhile1_all_incomplete Parse.isnt_whitespace (s ++ [0x29]) hsat]

/-- C2 witness: the inner step "." is whitespace-free, and the map parser on
"map(.)" indeed returns Incomplete rather than a Map operation. -/
theorem c2_map_parser_never_parses_step_witness :
    Parse.map (asciiBytes ( "map(") ++ [0x2E] ++ [0x29]) = Parse.PResult.incomplete :=
  c2_map_parser_never_parses_step.1 [0x2E] (by decide)

/-- C3: when a form's evaluation yields an OperationError, the run is claimed
to surface the failure distinguishably; in the code, main's final match sends
ApplicationError::Operation to the unit arm, so the process hands nothing to
the output sink and prints no message — exactly the same visible output as a
successful run of zero forms, for every error value. -/
theorem c3_main_silently_drops_operation_error (e : OperationError) :
    mainDispatch (Except.error (ApplicationError.operation e)) =
      { sinkForms := none, fatalMessage := none } ∧
    (mainDispatch (Except.error (ApplicationError.operation e))).fatalMessage =
      (mainDispatch (Except.ok [])).fatalMessage :=
  ⟨rfl, rfl⟩

/-- C4: every operation's type-mismatch message is claimed to include the
operation's own name; in the code, the Map operation's message says 'get'
(copy-pasted from GetOperation), as evaluating Map(Identity) on an integer
shows, even though the describe contract correctly reports "an integer". -/
theorem c4_map_error_message_names_get :
    (Operation.mapOp Operation.identity).execute (Value.int 1) =
      Except.error ⟨ "Can not apply 'get' operation to an integer"⟩ ∧
    value_type_name (Value.int 1) = "an integer" :=
  ⟨rfl, rfl⟩

/-- C5: Get(K).execute(v) fails exactly when v is not a Map, with the
type-mismatch message naming "get" and v's type; on a Map it returns the
entry stored under K (first occurrence, which the unique-keys invariant makes
the only one), and Nil when no entry has key K. -/
theorem c5_get_execute_characterization (k v : Value) :
    (∀ m pre x post, v = Value.map m → m = pre ++ (k, x) :: post →
        (∀ p ∈ pre, p.1 ≠ k) → (Operation.get k).execute v = Except.ok x) ∧
    (∀ m, v = Value.map m → (∀ p ∈ m, p.1 ≠ k) →
        (Operation.get k).execute v = Except.ok Value.nil) ∧
    ((∀ m, v ≠ Value.map m) →
        (Operation.get k).execute v =
          Except.error ⟨ "Can not apply 'get' operation to " ++ value_type_name v⟩) ∧
    ((∃ e, (Operation.get k).execute v = Except.error e) ↔ ∀ m, v ≠ Value.map m) := by
  refine ⟨?_, ?_, ?_, ?_⟩
  · intro m pre x post hv hm hpre
    subst hv
    subst hm
    simp only [Operation.execute]
    rw [mapGet_first k x post pre hpre]
  · intro m hv habs
    subst hv
    simp only [Operation.execute]
    rw [mapGet_of_absent k m habs]
  · intro hnm
    cases v
    case map m => exact absurd rfl (hnm m)
    all_goals rfl
  · constructor
    · rintro ⟨e, he⟩ m hv
      subst hv
      simp only [Operation.execute] at he
      exact Except.noConfusion he
    · intro hnm
      refine ⟨⟨ "Can not apply 'get' operation to " ++ value_type_name v⟩, ?_⟩
      cases v
      case map m => exact absurd rfl (hnm m)
      all_goals rfl

/-- C5 witness: on {:a 1, :b 2}, get :a returns 1, get :zz returns Nil, and
get on an integer input fails with the type-mismatch message. -/
theorem c5_get_execute_characterization_witness :
    (Operation.get (Value.keyword ( "a"))).execute c1Form = Except.ok (Value.int 1) ∧
    (Operation.get (Value.keyword ( "zz"))).execute c1Form = Except.ok Value.nil ∧
    (Operation.get (Value.keyword ( "a"))).execute (Value.int 7) =
      Except.error ⟨ "Can not apply 'get' operation to an integer"⟩ := by
  refine ⟨?_, ?_, ?_⟩
  · exact (c5_get_execute_characterization (Value.keyword ( "a")) c1Form).1 c1Entries []
      (Value.int 1) [(Value.keyword ( "b"), Value.int 2)] rfl rfl (by simp)
  · refine (c5_get_execute_characterization (Value.keyword ( "zz")) c1Form).2.1 c1Entries rfl ?_
    intro p hp
    simp only [c1Entries, List.mem_cons, List.mem_singleton] at hp
    rcases hp with h | h | h
    · subst h
      intro hc
      exact absurd (Value.keyword.inj hc) (by decide)
    · subst h
      intro hc
      exact absurd (Value.keyword.inj hc) (by decide)
    · exact absurd h (by simp at h)
  · exact (c5_get_execute_characterization (Value.keyword ( "a")) (Value.int 7)).2.2.1
      (fun m h => Value.noConfusion h)

/-- C6: for an inner operation succeeding elementwise, Map(op) over a List,
Vector or Set input [a, b, c] returns Vector [op a, op b, op c] in input
order (Set elements arriving in the set's canonical iteration order), and
every successful Map(op) result is a Vector whatever the input was. -/
theorem c6_map_operation_elementwise (op : Operation) (a b c ra rb rc : Value)
    (ha : op.execute a = Except.ok ra) (hb : op.execute b = Except.ok rb)
    (hc : op.execute c = Except.ok rc) :
    (Operation.mapOp op).execute (Value.list [a, b, c]) =
      Except.ok (Value.vector [ra, rb, rc]) ∧
    (Operation.mapOp op).execute (Value.vector [a, b, c]) =
      Except.ok (Value.vector [ra, rb, rc]) ∧
    (Operation.mapOp op).execute (Value.set [a, b, c]) =
      Except.ok (Value.vector [ra, rb, rc]) ∧
    (∀ v r, (Operation.mapOp op).execute v = Except.ok r → ∃ ys, r = Value.vector ys) := by
  have h2 : List.Forall₂ (fun x r => Operation.execute op x = Except.ok r)
      [a, b, c] [ra, rb, rc] :=
    List.Forall₂.cons ha (List.Forall₂.cons hb (List.Forall₂.cons hc List.Forall₂.nil))
  have hfold := tryFoldPush_all_ok (fun x => Operation.execute op x) h2 []
  simp only [List.nil_append] at hfold
  refine ⟨?_, ?_, ?_, execute_mapOp_ok_is_vector op⟩
  · simp only [Operation.execute, hfold, Except.map]
  · simp only [Operation.execute, hfold, Except.map]
  · simp only [Operation.execute, hfold, Except.map]

/-- C6 witness: Map(Identity) over the list, vector and set [1, 2, 3]
returns Vector [1, 2, 3]. -/
theorem c6_map_operation_elementwise_witness :
    (Operation.mapOp Operation.identity).execute
        (Value.list [Value.int 1, Value.int 2, Value.int 3]) =
      Except.ok (Value.vector [Value.int 1, Value.int 2, Value.int 3]) ∧
    (Operation.mapOp Operation.identity).execute
        (Value.set [Value.int 1, Value.int 2, Value.int 3]) =
      Except.ok (Value.vector [Value.int 1, Value.int 2, Value.int 3]) := by
  have h := c6_map_operation_elementwise Operation.identity
    (Value.int 1) (Value.int 2) (Value.int 3)
    (Value.int 1) (Value.int 2) (Value.int 3) rfl rfl rfl
  exact ⟨h.1, h.2.2.1⟩

/-- C7: when the inner operation fails on an element, Map(op) over a List,
Vector or Set input consisting of succeeding elements, the failing element
and any tail propagates exactly the first failing element's OperationError
and yields no Vector. -/
theorem c7_map_operation_first_failure (op : Operation) (pre : List Value) (x : Value)
    (post : List Value) (e : OperationError)
    (hpre : ∀ y ∈ pre, ∃ r, op.execute y = Except.ok r)
    (hx : op.execute x = Except.error e) :
    (Operation.mapOp op).execute (Value.list (pre ++ x :: post)) = Except.error e ∧
    (Operation.mapOp op).execute (Value.vector (pre ++ x :: post)) = Except.error e ∧
    (Operation.mapOp op).execute (Value.set (pre ++ x :: post)) = Except.error e := by
  have h := tryFoldPush_first_error (fun y => Operation.execute op y) x e post hx pre hpre []
  refine ⟨?_, ?_, ?_⟩
  · simp only [Operation.execute, h, Except.map]
  · simp only [Operation.execute, h, Except.map]
  · simp only [Operation.execute, h, Except.map]

/-- C7 witness: mapping get :a over [{:a 1, :b 2}, 5, nil] fails on the second
element with that element's own type-mismatch error. -/
theorem c7_map_operation_first_failure_witness :
    (Operation.mapOp (Operation.get (Value.keyword ( "a")))).execute
        (Value.list ([c1Form] ++ Value.int 5 :: [Value.nil])) =
      Except.error ⟨ "Can not apply 'get' operation to an integer"⟩ := by
  refine (c7_map_operation_first_failure (Operation.get (Value.keyword ( "a")))
    [c1Form] (Value.int 5) [Value.nil]
    ⟨ "Can not apply 'get' operation to an integer"⟩ ?_ rfl).1
  intro y hy
  simp only [List.mem_singleton] at hy
  subst hy
  exact ⟨mapGet c1Entries (Value.keyword ( "a")), rfl⟩

/-- C8: on any Map input whose entry sequence respects the canonical key
order, Keys and Values both succeed with Vectors of equal length whose i-th
components pair up to an entry of the map, the key sequence itself being in
canonical order, and both are empty on the empty map. -/
theorem c8_keys_values_aligned (m : List (Value × Value))
    (hsorted : m.Pairwise (fun p q => Value.cmp p.1 q.1 = Ordering.lt)) :
    ∃ ks vs : List Value,
      Operation.keys.execute (Value.map m) = Except.ok (Value.vector ks) ∧
      Operation.values.execute (Value.map m) = Except.ok (Value.vector vs) ∧
      ks.length = vs.length ∧
      (∀ i (hi : i < ks.length) (hj : i < vs.length),
        (ks.get ⟨i, hi⟩, vs.get ⟨i, hj⟩) ∈ m) ∧
      ks.Pairwise (fun a b => Value.cmp a b = Ordering.lt) ∧
      (m = [] → ks = [] ∧ vs = []) := by
  refine ⟨m.map Prod.fst, m.map Prod.snd, rfl, rfl, by simp, ?_, ?_, ?_⟩
  · intro i hi hj
    simp only [List.get_eq_getElem, List.getElem_map]
    have him : i < m.length := by simpa using hi
    have : (m[i].1, m[i].2) = m[i] := rfl
    rw [this]
    exact List.getElem_mem him
  · exact (List.pairwise_map).mpr hsorted
  · intro hm
    subst hm
    simp

/-- C8 witness: on the map {:a 1, :b 2}, whose keys are canonically ordered,
Keys/Values align entrywise. -/
theorem c8_keys_values_aligned_witness :
    ∃ ks vs : List Value,
      Operation.keys.execute (Value.map c1Entries) = Except.ok (Value.vector ks) ∧
      Operation.values.execute (Value.map c1Entries) = Except.ok (Value.vector vs) ∧
      ks.length = vs.length ∧
      (∀ i (hi : i < ks.length) (hj : i < vs.length),
        (ks.get ⟨i, hi⟩, vs.get ⟨i, hj⟩) ∈ c1Entries) ∧
      ks.Pairwise (fun a b => Value.cmp a b = Ordering.lt) ∧
      (c1Entries = [] → ks = [] ∧ vs = []) := by
  refine c8_keys_values_aligned c1Entries ?_
  show List.Pairwise (fun p q => Value.cmp p.1 q.1 = Ordering.lt)
    [(Value.keyword ( "a"), Value.int 1), (Value.keyword ( "b"), Value.int 2)]
  refine List.Pairwise.cons ?_ (by simp)
  intro p hp
  rw [List.mem_singleton] at hp
  subst hp
  show Value.cmp (Value.keyword ( "a")) (Value.keyword ( "b")) = Ordering.lt
  simp only [Value.cmp]
  decide

/-- C9 counterexample: parsing the bare ":abc" does not yield the operation
Get(Keyword("abc")) — the streaming take_while1 reaches end of input while
still inside the token and reports Incomplete, not a successful parse. -/
theorem c9_bare_keyword_is_incomplete :
    Parse.keyword (asciiBytes ( ":abc")) = Parse.PResult.incomplete ∧
    Parse.PResult.incomplete ≠
      Parse.PResult.done ([] : List Nat) (Operation.get (Value.keyword ( "abc"))) :=
  ⟨rfl, fun h => Parse.PResult.noConfusion h⟩

/-- C9 (amended): a keyword token must be terminated by a whitespace byte
(ASCII whitespace or a comma) for the streaming parser to complete: for any
nonempty whitespace-free token that decodes as UTF-8, parsing ':' ++ token ++
whitespace ++ rest yields Get(Keyword(token)) with the whitespace and rest
left unconsumed — in particular ":abc def" yields Get(Keyword("abc")) with
" def" unconsumed — while the bare ":abc" at end of input yields Incomplete
rather than a parsed operation. -/
theorem c9_keyword_token_boundary (t : List Nat) (w : Nat) (r : List Nat) (s : List Char)
    (ht : t ≠ []) (hsat : ∀ b ∈ t, Parse.is_whitespace b = false)
    (hw : Parse.is_whitespace w = true) (hdec : utf8Decode t = some s) :
    Parse.keyword (0x3A :: (t ++ w :: r)) =
      Parse.PResult.done (w :: r) (Operation.get (Value.keyword (String.mk s))) ∧
    Parse.keyword (asciiBytes ( ":abc def")) =
      Parse.PResult.done (asciiBytes ( " def")) (Operation.get (Value.keyword ( "abc"))) ∧
    Parse.keyword (asciiBytes ( ":abc")) = Parse.PResult.incomplete := by
  refine ⟨?_, rfl, rfl⟩
  have hsat2 : ∀ b ∈ t, Parse.isnt_whitespace b = true := by
    intro b hb
    simp [Parse.isnt_whitespace, hsat b hb]
  have hw2 : Parse.isnt_whitespace w = false := by
    simp [Parse.isnt_whitespace, hw]
  show Parse.pmapPanic Parse.keyword_to_get_op
      (Parse.ppreceded (Parse.pchar 0x3A) (Parse.takeWhile1 Parse.isnt_whitespace))
      (0x3A :: (t ++ w :: r)) =
    Parse.PResult.done (w :: r) (Operation.get (Value.keyword (String.mk s)))
  unfold Parse.pmapPanic Parse.ppreceded Parse.pchar
  simp [takeWhile1_stops Parse.isnt_whitespace t w r ht hsat2 hw2,
    Parse.keyword_to_get_op, hdec]

/-- C9 witness: token "abc", terminator ' ', rest "def". -/
theorem c9_keyword_token_boundary_witness :
    Parse.keyword (0x3A :: ([0x61, 0x62, 0x63] ++ 0x20 :: asciiBytes ( "def"))) =
      Parse.PResult.done (0x20 :: asciiBytes ( "def"))
        (Operation.get (Value.keyword (String.mk [ 'a', 'b', 'c']))) :=
  (c9_keyword_token_boundary [0x61, 0x62, 0x63] 0x20 (asciiBytes ( "def"))
    [ 'a', 'b', 'c'] (by decide) (by decide) (by decide) (by decide)).1

/-- C10: the keyword parser is not total over arbitrary byte strings: on the
input ':' 0xFF ',' the comma ends the token, the token bytes [0xFF] are not
valid UTF-8, and str::from_utf8(...).unwrap() in keyword_to_get_op panics
instead of producing a ParseFailure. -/
theorem c10_keyword_panics_on_invalid_utf8 :
    Parse.keyword [0x3A, 0xFF, 0x2C] = Parse.PResult.panic ∧
    utf8Decode [0xFF] = none ∧
    Parse.is_whitespace 0xFF = false ∧
    Parse.keyword_to_get_op [0xFF] = none :=
  ⟨rfl, rfl, rfl, rfl⟩
